import Mathlib

/-!
Verification of the TachyonExpireCache synchronization engine
(`src/TachyonExpireCache.ts`) against its natural-language specification.

The cache keeps an in-memory mapping `Map<Key, {data, expires}>`, mirrors it
to a storage driver, evicts entries whose `expires` timestamp is strictly in
the past, and gates driver writes on the driver's advertised bandwidth tier.
We embed the JavaScript `Map` as an association list preserving insertion
order, timestamps as `Nat` (milliseconds), and each public method as a pure
state transformer that additionally reports its driver-store count and the
`clear` notifications it emitted.
-/

/-- The `TachyonBandwidth` enumeration of the `tachyon-drive` dependency.
Numeric values are `VeryLarge = 0, Large = 1, Normal = 2, Small = 3,
VerySmall = 4`, as documented by the cache's own doc comments
("stores: TachyonBandwidth.VerySmall (any driver bandwidth)",
"cleanExpires: TachyonBandwidth.Small (small or higher driver bandwidth)"),
which only hold under this ordering together with `bandwidth <= limit`. -/
inductive TachyonBandwidth where
  | VeryLarge
  | Large
  | Normal
  | Small
  | VerySmall
deriving DecidableEq, Repr

/-- Numeric value of a bandwidth tier (the TypeScript enum value). -/
def TachyonBandwidth.toNat : TachyonBandwidth → Nat
  | .VeryLarge => 0
  | .Large => 1
  | .Normal => 2
  | .Small => 3
  | .VerySmall => 4

/-- `testBandwidth` of `TachyonExpireCache`:
`return this.driver.bandwidth <= limit;` where `driver` has bandwidth `bw`. -/
def testBandwidth (bw limit : TachyonBandwidth) : Bool :=
  bw.toNat ≤ limit.toNat

/-- `CachePayload<Payload> = {data: Payload; expires: number | undefined}`. -/
structure CachePayload (P : Type) where
  data : P
  expires : Option Nat
deriving DecidableEq, Repr

/-- `CacheMap<Payload, Key = string>`: the JS `Map` embedded as an
association list in insertion order. -/
abbrev CacheMap (P : Type) := List (String × CachePayload P)

/-- JS `Map.prototype.get`: first binding of the key, if any. -/
def listGet {α : Type} : List (String × α) → String → Option α
  | [], _ => none
  | (k', v') :: rest, k => if k' = k then some v' else listGet rest k

/-- JS `Map.prototype.set`: overwrite in place if the key exists
(keeping its position), otherwise append at the end. -/
def listSet {α : Type} : List (String × α) → String → α → List (String × α)
  | [], k, v => [(k, v)]
  | (k', v') :: rest, k, v =>
    if k' = k then (k, v) :: rest else (k', v') :: listSet rest k v

/-- JS `Map.prototype.delete`: remove the binding of the key. -/
def listDelete {α : Type} : List (String × α) → String → List (String × α)
  | [], _ => []
  | (k', v') :: rest, k => if k' = k then rest else (k', v') :: listDelete rest k

/-- The loop condition of `handleExpires`:
`value.expires !== undefined && value.expires < now`. -/
def isExpiredB {P : Type} (v : CachePayload P) (now : Nat) : Bool :=
  match v.expires with
  | some e => decide (e < now)
  | none => false

/-- `handleExpires` of `TachyonExpireCache`: one pass over the map, deleting
every entry whose `expires` is strictly less than `now` and collecting the
removed `(key, data)` pairs into `deleteData`. Returns
`(remaining cache, deleteData)` in iteration order. -/
def handleExpires {P : Type} : CacheMap P → Nat → CacheMap P × List (String × P)
  | [], _ => ([], [])
  | kv :: rest, now =>
    let r := handleExpires rest now
    if isExpiredB kv.2 now then (r.1, (kv.1, kv.2.data) :: r.2)
    else (kv :: r.1, r.2)

/-- `buildFlatDataMap` of `TachyonExpireCache`: map each entry to its payload. -/
def buildFlatDataMap {P : Type} (cache : CacheMap P) : List (String × P) :=
  cache.map (fun kv => (kv.1, kv.2.data))

/-- The expiry-timestamp computation of `set`:
`expires?.getTime() ?? (this.defaultExpireMs && Date.now() + this.defaultExpireMs)`.
JavaScript `&&` short-circuits on the falsy number `0`, so a configured
default of `0` yields the timestamp `0` rather than `now`. -/
def computeExpireTs (explicitTs : Option Nat) (defaultExpireMs : Option Nat) (now : Nat) :
    Option Nat :=
  match explicitTs with
  | some t => some t
  | none =>
    match defaultExpireMs with
    | none => none
    | some d => if d = 0 then some 0 else some (now + d)

/-- The mutable fields of `TachyonExpireCache` relevant after hydration:
the in-memory `cache` map and the `isWriting` write-lock flag. -/
structure CState (P : Type) where
  cache : CacheMap P
  isWriting : Bool
deriving DecidableEq, Repr

/-- Externally visible driver effects of one operation: number of
`driver.store` calls and the emitted `clear` notifications (each carrying
the removed `(key, data)` pairs). -/
structure CacheEffects (P : Type) where
  stores : Nat
  clears : List (List (String × P))
deriving DecidableEq, Repr

/-- Construction options that matter here: the driver's bandwidth tier and
the configured `defaultExpireMs`. -/
structure CacheConfig where
  bw : TachyonBandwidth
  defaultExpireMs : Option Nat
deriving DecidableEq, Repr

/-- `writeStore` of `TachyonExpireCache`: sets the `isWriting` lock and
issues exactly one `driver.store`. (The lock is released later by the
`setTimeout` callback, modelled as the separate `lockTimeout` event.) -/
def writeStore {P : Type} (s : CState P) : CState P × Nat :=
  ({ s with isWriting := true }, 1)

/-- `handleStore` of `TachyonExpireCache`: evict expired entries, store if
`testBandwidth limit` allows it, and notify `clear` when eviction removed
anything. -/
def handleStore {P : Type} (bw limit : TachyonBandwidth) (s : CState P) (now : Nat) :
    CState P × CacheEffects P :=
  let er := handleExpires s.cache now
  let s1 : CState P := { cache := er.1, isWriting := s.isWriting }
  let w := if testBandwidth bw limit then writeStore s1 else (s1, 0)
  (w.1, { stores := w.2, clears := if er.2.isEmpty then [] else [er.2] })

/-- `cleanExpired` of `TachyonExpireCache`: evict expired entries; only when
something was removed, store if `testBandwidth limit` allows it and notify
`clear`. A sweep that removes nothing is completely silent. -/
def cleanExpired {P : Type} (bw limit : TachyonBandwidth) (s : CState P) (now : Nat) :
    CState P × CacheEffects P :=
  let er := handleExpires s.cache now
  let s1 : CState P := { cache := er.1, isWriting := s.isWriting }
  if er.2.isEmpty then (s1, { stores := 0, clears := [] })
  else
    let w := if testBandwidth bw limit then writeStore s1 else (s1, 0)
    (w.1, { stores := w.2, clears := [er.2] })

/-- The body of the `for (const [key, value] of data.entries())` loop of
`handleUpdate`: replace the local entry when the key is absent or its
`expires` differs from the incoming one, recording modification. -/
def mergeEntry {P : Type} (acc : CacheMap P × Bool) (kv : String × CachePayload P) :
    CacheMap P × Bool :=
  match listGet acc.1 kv.1 with
  | none => (listSet acc.1 kv.1 kv.2, true)
  | some cv =>
    if cv.expires ≠ kv.2.expires then (listSet acc.1 kv.1 kv.2, true) else acc

/-- The whole merge loop of `handleUpdate`, folded over the incoming
snapshot in iteration order, starting unmodified. -/
def mergeUpdate {P : Type} (cache incoming : CacheMap P) : CacheMap P × Bool :=
  incoming.foldl mergeEntry (cache, false)

/-- Specification-side description of what the merge does to one incoming
key: keep the local entry when its `expires` matches, otherwise take the
incoming entry (also when the key is locally absent). Compared against
`mergeUpdate` in the external-update theorem. -/
def mergeExpected {P : Type} (cache : CacheMap P) (k : String) (v : CachePayload P) :
    Option (CachePayload P) :=
  match listGet cache k with
  | none => some v
  | some cv => if cv.expires = v.expires then some cv else some v

/-- The update condition of `handleUpdate` for one incoming entry, read off
the original local map: key absent or `expires` differs. -/
def needsUpdate {P : Type} (cache : CacheMap P) (kv : String × CachePayload P) : Bool :=
  match listGet cache kv.1 with
  | none => true
  | some cv => decide (cv.expires ≠ kv.2.expires)

/-- One public operation (or driver-originated event) of the cache. -/
inductive CacheOp (P : Type) where
  | getOp (key : String)
  | setOp (key : String) (data : P) (expires : Option Nat)
  | deleteOp (key : String)
  | hasOp (key : String)
  | expiresOp (key : String)
  | clearOp
  | sizeOp
  | entriesOp
  | keysOp
  | valuesOp
  | updateOp (data : Option (CacheMap P))
  | lockTimeout
deriving DecidableEq, Repr

/-- The post-hydration behavior of each method of `TachyonExpireCache`
(every public method first awaits `doInitialHydrate`, modelled separately):
* `get` runs `cleanExpired(Small)`;
* `set` writes the entry (expiry from `computeExpireTs`) then
  `handleStore(VerySmall)`;
* `delete` removes an existing key, runs `handleStore(VerySmall)` and then
  notifies `clear` with that single pair; it does nothing on a missing key;
* `has`/`expires` run `cleanExpired(Normal)`;
* `clear` empties the map, notifies `clear` with the whole flat map, then
  runs `handleStore(VerySmall)`;
* `size`, `entries`, `keys`, `values` touch nothing;
* `updateOp` is the driver's `update` notification (`handleUpdate`):
  discarded while `isWriting`, otherwise the merge loop followed by
  `handleStore(VerySmall)` when modified;
* `lockTimeout` is the `setTimeout` callback releasing the write lock. -/
def applyOp {P : Type} (cfg : CacheConfig) (s : CState P) (op : CacheOp P) (now : Nat) :
    CState P × CacheEffects P :=
  match op with
  | .getOp _ => cleanExpired cfg.bw .Small s now
  | .setOp k d e =>
    let ts := computeExpireTs e cfg.defaultExpireMs now
    handleStore cfg.bw .VerySmall { cache := listSet s.cache k ⟨d, ts⟩, isWriting := s.isWriting } now
  | .deleteOp k =>
    match listGet s.cache k with
    | none => (s, { stores := 0, clears := [] })
    | some v =>
      let r := handleStore cfg.bw .VerySmall { cache := listDelete s.cache k, isWriting := s.isWriting } now
      (r.1, { stores := r.2.stores, clears := r.2.clears ++ [[(k, v.data)]] })
  | .hasOp _ => cleanExpired cfg.bw .Normal s now
  | .expiresOp _ => cleanExpired cfg.bw .Normal s now
  | .clearOp =>
    let removed := buildFlatDataMap s.cache
    let r := handleStore cfg.bw .VerySmall { cache := [], isWriting := s.isWriting } now
    (r.1, { stores := r.2.stores, clears := [removed] ++ r.2.clears })
  | .sizeOp => (s, { stores := 0, clears := [] })
  | .entriesOp => (s, { stores := 0, clears := [] })
  | .keysOp => (s, { stores := 0, clears := [] })
  | .valuesOp => (s, { stores := 0, clears := [] })
  | .updateOp data =>
    if s.isWriting then (s, { stores := 0, clears := [] })
    else
      match data with
      | none => (s, { stores := 0, clears := [] })
      | some inc =>
        let m := mergeUpdate s.cache inc
        if m.2 then handleStore cfg.bw .VerySmall { cache := m.1, isWriting := s.isWriting } now
        else ({ cache := m.1, isWriting := s.isWriting }, { stores := 0, clears := [] })
  | .lockTimeout => ({ s with isWriting := false }, { stores := 0, clears := [] })

/-- `size` returns `this.cache.size` — the raw entry count. -/
def sizeValue {P : Type} (s : CState P) : Nat :=
  s.cache.length

/-- The sequence produced by `entries()`: `buildFlatDataMap().entries()`. -/
def entriesList {P : Type} (s : CState P) : List (String × P) :=
  buildFlatDataMap s.cache

/-- The sequence produced by `keys()`: `this.cache.keys()`. -/
def keysList {P : Type} (s : CState P) : List String :=
  s.cache.map Prod.fst

/-- The sequence produced by `values()`: `buildFlatDataMap().values()`. -/
def valuesList {P : Type} (s : CState P) : List P :=
  (buildFlatDataMap s.cache).map Prod.snd

/-- State of `doInitialHydrate`: the `isHydrated` flag, whether the shared
`hydratePromise` is set (`pending`), whether that promise has rejected
(`rejected`), how many times `driver.hydrate()` has been invoked
(`hydrateCount`), the in-memory map, and the cumulative store count and
`clear` notifications issued by the post-hydrate self-clean. -/
structure HydrateState (P : Type) where
  isHydrated : Bool
  pending : Bool
  rejected : Bool
  hydrateCount : Nat
  cache : CacheMap P
  stores : Nat
  clears : List (List (String × P))
deriving DecidableEq, Repr

/-- Events of the hydration state machine:
* `enter` — a caller runs the synchronous prefix of `doInitialHydrate`
  (the check of `isHydrated` and the check-and-set of `hydratePromise`
  happen atomically between awaits on the JS event loop);
* `resolve data now` — the shared promise fulfils with `data` and the
  awaiting callers run the continuation (rebuild, flag setting, and the
  `VerySmall` self-clean; idempotent across callers because the source
  mutates the one `Map` object in place);
* `reject` — the shared promise rejects: the error propagates to all
  awaiting callers and the continuation after the `await` never runs. -/
inductive HydrateEvent (P : Type) where
  | enter
  | resolve (data : Option (CacheMap P)) (now : Nat)
  | reject
deriving DecidableEq, Repr

/-- One transition of `doInitialHydrate`, translated from the source:
`enter` issues `driver.hydrate()` only when not hydrated and no shared
promise exists; the success continuation rebuilds the map wholesale
(`handleRebuild`) when data was returned, marks `isHydrated`, clears the
promise, and — only when the driver bandwidth is `VerySmall` — runs
`cleanExpired(VerySmall)`; rejection leaves `hydratePromise` set because
the source clears it only after a successful `await`. -/
def hydrateStep {P : Type} (bw : TachyonBandwidth) (s : HydrateState P) (e : HydrateEvent P) :
    HydrateState P :=
  match e with
  | .enter =>
    if s.isHydrated then s
    else if s.pending then s
    else { s with pending := true, rejected := false, hydrateCount := s.hydrateCount + 1 }
  | .resolve data now =>
    if s.pending = true ∧ s.rejected = false then
      let c1 := match data with
        | some m => m
        | none => s.cache
      if bw = TachyonBandwidth.VerySmall then
        let er := handleExpires c1 now
        if er.2.isEmpty then
          { s with isHydrated := true, pending := false, cache := er.1 }
        else
          { s with isHydrated := true, pending := false, cache := er.1,
                   stores := s.stores + 1, clears := s.clears ++ [er.2] }
      else
        { s with isHydrated := true, pending := false, cache := c1 }
    else s
  | .reject =>
    if s.pending = true ∧ s.isHydrated = false then { s with rejected := true } else s

/-- The state of a freshly constructed cache: not hydrated, no shared
promise, empty map, no driver traffic yet. -/
def initialHydrateState {P : Type} : HydrateState P :=
  { isHydrated := false, pending := false, rejected := false, hydrateCount := 0,
    cache := [], stores := 0, clears := [] }

/-- Run the hydration machine on a whole event trace from construction. -/
def runHydrate {P : Type} (bw : TachyonBandwidth) (evs : List (HydrateEvent P)) :
    HydrateState P :=
  evs.foldl (hydrateStep bw) initialHydrateState

/-- Concrete entry with an expiry timestamp of 3 ms, used to evaluate the
theorems on explicit inputs. -/
def sampleEntryLive : CachePayload Nat :=
  { data := 1, expires := some 3 }

/-- Concrete entry without an expiry timestamp. -/
def sampleEntryNoExp : CachePayload Nat :=
  { data := 2, expires := none }

/-- Concrete incoming entry without an expiry timestamp. -/
def sampleEntryB : CachePayload Nat :=
  { data := 7, expires := none }

/-- Concrete one-entry cache map. -/
def sampleCache : CacheMap Nat :=
  [("a", sampleEntryLive)]

/-- Concrete two-entry cache map: one expiring entry, one permanent one. -/
def sampleCache2 : CacheMap Nat :=
  [("a", sampleEntryLive), ("b", sampleEntryNoExp)]

/-- Concrete incoming update snapshot: a changed expiry for `a`, a new
key `b`. -/
def sampleIncoming : CacheMap Nat :=
  [("a", { data := 5, expires := some 9 }), ("b", sampleEntryB)]

/-- Concrete cache state over `sampleCache`, write lock clear. -/
def sampleState : CState Nat :=
  { cache := sampleCache, isWriting := false }

/-- Concrete cache state over `sampleCache2`, write lock clear. -/
def sampleState2 : CState Nat :=
  { cache := sampleCache2, isWriting := false }

/-- Concrete cache state with the write lock set. -/
def sampleWriting : CState Nat :=
  { cache := sampleCache, isWriting := true }

/-- Concrete configuration: a `VeryLarge`-bandwidth driver, no default TTL. -/
def sampleCfg : CacheConfig :=
  { bw := TachyonBandwidth.VeryLarge, defaultExpireMs := none }

/-- Concrete configuration with a one-minute default TTL. -/
def sampleCfgTtl : CacheConfig :=
  { bw := TachyonBandwidth.VeryLarge, defaultExpireMs := some 60000 }

/-- Concrete hydration state holding an in-flight, not-rejected shared
hydrate promise. -/
def samplePending : HydrateState Nat :=
  { isHydrated := false, pending := true, rejected := false, hydrateCount := 1,
    cache := sampleCache, stores := 0, clears := [] }

/-- Concrete hydration state whose shared hydrate promise has rejected. -/
def sampleRejected : HydrateState Nat :=
  { isHydrated := false, pending := true, rejected := true, hydrateCount := 1,
    cache := [], stores := 0, clears := [] }

/-- Every bandwidth tier passes the `VerySmall` threshold, so stores gated
at `VerySmall` always happen. -/
theorem testBandwidth_verySmall (bw : TachyonBandwidth) :
    testBandwidth bw TachyonBandwidth.VerySmall = true := by
  cases bw <;> rfl

/-- `isExpiredB` holds exactly when the entry has an expiry strictly below
`now`. -/
theorem isExpiredB_iff {P : Type} (v : CachePayload P) (now : Nat) :
    isExpiredB v now = true ↔ ∃ e, v.expires = some e ∧ e < now := by
  cases h : v.expires with
  | none => simp [isExpiredB, h]
  | some e => simp [isExpiredB, h]

/-- The surviving side of `handleExpires` is the filter of the non-expired
entries. -/
theorem handleExpires_fst {P : Type} (cache : CacheMap P) (now : Nat) :
    (handleExpires cache now).1 = cache.filter (fun kv => !isExpiredB kv.2 now) := by
  induction cache with
  | nil => rfl
  | cons kv rest ih =>
    by_cases h : isExpiredB kv.2 now = true
    · simp [handleExpires, h, List.filter, ih]
    · simp only [Bool.not_eq_true] at h
      simp [handleExpires, h, List.filter, ih]

/-- The removed side of `handleExpires` is the expired entries, flattened to
`(key, data)` pairs, in iteration order. -/
theorem handleExpires_snd {P : Type} (cache : CacheMap P) (now : Nat) :
    (handleExpires cache now).2 =
      (cache.filter (fun kv => isExpiredB kv.2 now)).map (fun kv => (kv.1, kv.2.data)) := by
  induction cache with
  | nil => rfl
  | cons kv rest ih =>
    by_cases h : isExpiredB kv.2 now = true
    · simp [handleExpires, h, List.filter, ih]
    · simp only [Bool.not_eq_true] at h
      simp [handleExpires, h, List.filter, ih]

/-- Eviction partitions the map: survivors plus removed account for every
entry. -/
theorem handleExpires_length {P : Type} (cache : CacheMap P) (now : Nat) :
    (handleExpires cache now).1.length + (handleExpires cache now).2.length = cache.length := by
  induction cache with
  | nil => rfl
  | cons kv rest ih =>
    by_cases h : isExpiredB kv.2 now = true
    · simp only [handleExpires, h, if_true, List.length_cons]
      omega
    · simp only [handleExpires, h, if_false, Bool.false_eq_true, List.length_cons]
      omega

/-- Membership in the survivors: the entry was present and is not expired. -/
theorem mem_handleExpires_fst {P : Type} (cache : CacheMap P) (now : Nat)
    (k : String) (v : CachePayload P) :
    (k, v) ∈ (handleExpires cache now).1 ↔ (k, v) ∈ cache ∧ isExpiredB v now = false := by
  rw [handleExpires_fst]
  simp [List.mem_filter]

/-- Membership in the removed pairs: some present entry with that key was
expired and carried that payload. -/
theorem mem_handleExpires_snd {P : Type} (cache : CacheMap P) (now : Nat)
    (k : String) (d : P) :
    (k, d) ∈ (handleExpires cache now).2 ↔
      ∃ v, (k, v) ∈ cache ∧ isExpiredB v now = true ∧ v.data = d := by
  rw [handleExpires_snd]
  constructor
  · intro h
    rcases List.mem_map.mp h with ⟨⟨k', v'⟩, hmem, heq⟩
    rcases List.mem_filter.mp hmem with ⟨hcache, hexp⟩
    have hk : k' = k := congrArg Prod.fst heq
    subst hk
    exact ⟨v', hcache, hexp, congrArg Prod.snd heq⟩
  · rintro ⟨v, hmem, hexp, hd⟩
    exact List.mem_map.mpr ⟨(k, v), List.mem_filter.mpr ⟨hmem, hexp⟩, by simp [hd]⟩

/-- `listSet` always leaves the written pair in the map. -/
theorem listSet_self_mem {P : Type} (m : List (String × P)) (k : String) (v : P) :
    (k, v) ∈ listSet m k v := by
  induction m with
  | nil => simp [listSet]
  | cons kv rest ih =>
    rcases kv with ⟨k', v'⟩
    by_cases h : k' = k
    · simp [listSet, h]
    · simp only [listSet]
      rw [if_neg h]
      exact List.mem_cons_of_mem _ ih

/-- Reading another key is unaffected by `listSet`. -/
theorem listGet_listSet_ne {P : Type} (m : List (String × P)) (k k0 : String) (v : P)
    (h : k ≠ k0) : listGet (listSet m k v) k0 = listGet m k0 := by
  induction m with
  | nil => simp [listSet, listGet, h]
  | cons kv rest ih =>
    rcases kv with ⟨k', v'⟩
    by_cases hk : k' = k
    · subst hk
      simp [listSet, listGet, h]
    · simp only [listSet, if_neg hk, listGet]
      by_cases hk0 : k' = k0
      · simp [hk0]
      · simp [hk0, ih]

/-- Reading the written key after `listSet` yields the written value. -/
theorem listGet_listSet_self {P : Type} (m : List (String × P)) (k : String) (v : P) :
    listGet (listSet m k v) k = some v := by
  induction m with
  | nil => simp [listSet, listGet]
  | cons kv rest ih =>
    rcases kv with ⟨k', v'⟩
    by_cases hk : k' = k
    · simp [listSet, listGet, hk]
    · simp [listSet, listGet, hk, ih]

/-- `listSet` never removes a key. -/
theorem listGet_isSome_listSet {P : Type} (m : List (String × P)) (k k0 : String) (v : P)
    (h : (listGet m k0).isSome = true) : (listGet (listSet m k v) k0).isSome = true := by
  by_cases hk : k = k0
  · subst hk
    simp [listGet_listSet_self]
  · rw [listGet_listSet_ne m k k0 v hk]
    exact h

/-- One merge step never removes a key from the local map. -/
theorem mergeEntry_isSome {P : Type} (acc : CacheMap P × Bool) (kv : String × CachePayload P)
    (k0 : String) (h : (listGet acc.1 k0).isSome = true) :
    (listGet (mergeEntry acc kv).1 k0).isSome = true := by
  cases hg : listGet acc.1 kv.1 with
  | none =>
    simp only [mergeEntry, hg]
    exact listGet_isSome_listSet _ _ _ _ h
  | some cv =>
    by_cases hne : cv.expires ≠ kv.2.expires
    · simp only [mergeEntry, hg]
      rw [if_pos hne]
      exact listGet_isSome_listSet _ _ _ _ h
    · simp only [mergeEntry, hg]
      rw [if_neg hne]
      exact h

/-- The whole merge loop never removes a key from the local map. -/
theorem foldl_mergeEntry_isSome {P : Type} (incoming : CacheMap P) (acc : CacheMap P × Bool)
    (k0 : String) (h : (listGet acc.1 k0).isSome = true) :
    (listGet (incoming.foldl mergeEntry acc).1 k0).isSome = true := by
  induction incoming generalizing acc with
  | nil => exact h
  | cons kv rest ih => exact ih _ (mergeEntry_isSome acc kv k0 h)

/-- One merge step for a different key leaves a key's binding unchanged. -/
theorem mergeEntry_get_ne {P : Type} (acc : CacheMap P × Bool) (kv : String × CachePayload P)
    (k0 : String) (h : kv.1 ≠ k0) :
    listGet (mergeEntry acc kv).1 k0 = listGet acc.1 k0 := by
  cases hg : listGet acc.1 kv.1 with
  | none =>
    simp only [mergeEntry, hg]
    exact listGet_listSet_ne _ _ _ _ h
  | some cv =>
    by_cases hne : cv.expires ≠ kv.2.expires
    · simp only [mergeEntry, hg]
      rw [if_pos hne]
      exact listGet_listSet_ne _ _ _ _ h
    · simp only [mergeEntry, hg]
      rw [if_neg hne]

/-- Merging a snapshot that never mentions a key leaves that key's binding
unchanged. -/
theorem foldl_mergeEntry_get_not_mem {P : Type} (incoming : CacheMap P)
    (acc : CacheMap P × Bool) (k0 : String) (h : k0 ∉ incoming.map Prod.fst) :
    listGet (incoming.foldl mergeEntry acc).1 k0 = listGet acc.1 k0 := by
  induction incoming generalizing acc with
  | nil => rfl
  | cons kv rest ih =>
    simp only [List.map_cons, List.mem_cons, not_or] at h
    rw [List.foldl_cons, ih _ (by exact h.2)]
    exact mergeEntry_get_ne acc kv k0 (fun he => h.1 he.symm)

/-- `mergeExpected` only reads the key's binding. -/
theorem mergeExpected_congr {P : Type} (c1 c2 : CacheMap P) (k : String) (v : CachePayload P)
    (h : listGet c1 k = listGet c2 k) : mergeExpected c1 k v = mergeExpected c2 k v := by
  unfold mergeExpected
  rw [h]

/-- Per-key result of the merge loop on a duplicate-free incoming snapshot:
the incoming entry wins exactly when the key is absent locally or the
expiry differs. -/
theorem foldl_mergeEntry_get_mem {P : Type} (incoming : CacheMap P)
    (acc : CacheMap P × Bool) (k : String) (v : CachePayload P)
    (hnodup : (incoming.map Prod.fst).Nodup) (hkv : (k, v) ∈ incoming) :
    listGet (incoming.foldl mergeEntry acc).1 k = mergeExpected acc.1 k v := by
  induction incoming generalizing acc with
  | nil => exact absurd hkv (List.not_mem_nil _)
  | cons kv rest ih =>
    simp only [List.map_cons, List.nodup_cons] at hnodup
    rcases List.mem_cons.mp hkv with heq | hmem
    · subst heq
      rw [List.foldl_cons, foldl_mergeEntry_get_not_mem rest _ k hnodup.1]
      cases hg : listGet acc.1 k with
      | none =>
        simp only [mergeEntry, mergeExpected, hg]
        exact listGet_listSet_self _ _ _
      | some cv =>
        by_cases hne : cv.expires ≠ v.expires
        · simp only [mergeEntry, mergeExpected, hg]
          rw [if_pos hne, if_neg (fun he => hne he)]
          exact listGet_listSet_self _ _ _
        · simp only [mergeEntry, mergeExpected, hg]
          rw [if_neg hne, if_pos (not_not.mp hne)]
          exact hg
    · have hk1 : kv.1 ≠ k := by
        intro he
        exact hnodup.1 (he ▸ List.mem_map.mpr ⟨(k, v), hmem, rfl⟩)
      rw [List.foldl_cons, ih _ hnodup.2 hmem]
      exact mergeExpected_congr _ _ k v (mergeEntry_get_ne acc kv k hk1)

/-- A merge step keeps the modified flag once it is set. -/
theorem mergeEntry_modified_mono {P : Type} (acc : CacheMap P × Bool)
    (kv : String × CachePayload P) (h : acc.2 = true) : (mergeEntry acc kv).2 = true := by
  unfold mergeEntry
  cases hg : listGet acc.1 kv.1 with
  | none => rfl
  | some cv =>
    by_cases hne : cv.expires ≠ kv.2.expires
    · simp [hne]
    · simp [hne, h]

/-- The merge loop keeps the modified flag once it is set. -/
theorem foldl_mergeEntry_modified_mono {P : Type} (incoming : CacheMap P)
    (acc : CacheMap P × Bool) (h : acc.2 = true) :
    (incoming.foldl mergeEntry acc).2 = true := by
  induction incoming generalizing acc with
  | nil => exact h
  | cons kv rest ih => exact ih _ (mergeEntry_modified_mono acc kv h)

/-- The modified flag after the merge loop: starting flag, or some incoming
entry needed an update relative to the starting local map. -/
theorem foldl_mergeEntry_modified {P : Type} (incoming : CacheMap P)
    (acc : CacheMap P × Bool) :
    (incoming.foldl mergeEntry acc).2 =
      (acc.2 || incoming.any (fun kv => needsUpdate acc.1 kv)) := by
  induction incoming generalizing acc with
  | nil => simp
  | cons kv rest ih =>
    by_cases hn : needsUpdate acc.1 kv = true
    · have hstep : (mergeEntry acc kv).2 = true := by
        unfold needsUpdate at hn
        unfold mergeEntry
        cases hg : listGet acc.1 kv.1 with
        | none => rfl
        | some cv =>
          rw [hg] at hn
          simp only [decide_eq_true_eq] at hn
          simp [hn]
      rw [List.foldl_cons, foldl_mergeEntry_modified_mono rest _ hstep]
      simp [List.any_cons, hn]
    · have hstep : mergeEntry acc kv = acc := by
        unfold needsUpdate at hn
        unfold mergeEntry
        cases hg : listGet acc.1 kv.1 with
        | none => rw [hg] at hn; simp at hn
        | some cv =>
          rw [hg] at hn
          simp only [decide_eq_true_eq, not_not] at hn
          simp [hn]
      rw [List.foldl_cons, hstep, ih]
      simp only [Bool.not_eq_true] at hn
      simp [List.any_cons, hn]

/-- The single-flight invariant of `doInitialHydrate`: `driver.hydrate()`
has run at most once, and it has not run at all while neither the shared
promise nor the hydrated flag is set. -/
def hydrateInv {P : Type} (s : HydrateState P) : Prop :=
  s.hydrateCount ≤ 1 ∧ (s.pending = false → s.isHydrated = false → s.hydrateCount = 0)

/-- Every hydration event preserves the single-flight invariant. -/
theorem hydrateStep_inv {P : Type} (bw : TachyonBandwidth) (s : HydrateState P)
    (e : HydrateEvent P) (h : hydrateInv s) : hydrateInv (hydrateStep bw s e) := by
  rcases h with ⟨h1, h2⟩
  cases e with
  | enter =>
    by_cases hh : s.isHydrated = true
    · simpa [hydrateStep, hh] using ⟨h1, h2⟩
    · by_cases hp : s.pending = true
      · simp only [Bool.not_eq_true] at hh
        simpa [hydrateStep, hh, hp] using ⟨h1, h2⟩
      · simp only [Bool.not_eq_true] at hh hp
        have hc : s.hydrateCount = 0 := h2 hp hh
        simp [hydrateStep, hh, hp, hydrateInv, hc]
  | resolve data now =>
    by_cases hg : s.pending = true ∧ s.rejected = false
    · simp only [hydrateStep, if_pos hg]
      by_cases hbw : bw = TachyonBandwidth.VerySmall
      · simp only [if_pos hbw]
        by_cases he : (handleExpires (match data with | some m => m | none => s.cache) now).2.isEmpty
        · simp only [if_pos he]
          exact ⟨h1, by intro _ hcontra; simp at hcontra⟩
        · simp only [if_neg he]
          exact ⟨h1, by intro _ hcontra; simp at hcontra⟩
      · simp only [if_neg hbw]
        exact ⟨h1, by intro _ hcontra; simp at hcontra⟩
    · simpa [hydrateStep, if_neg hg] using ⟨h1, h2⟩
  | reject =>
    by_cases hg : s.pending = true ∧ s.isHydrated = false
    · simp only [hydrateStep, if_pos hg]
      exact ⟨h1, by intro hcontra; rw [hg.1] at hcontra; simp at hcontra⟩
    · simpa [hydrateStep, if_neg hg] using ⟨h1, h2⟩

/-- The single-flight invariant holds along every event trace. -/
theorem foldl_hydrateStep_inv {P : Type} (bw : TachyonBandwidth)
    (evs : List (HydrateEvent P)) (s : HydrateState P) (h : hydrateInv s) :
    hydrateInv (evs.foldl (hydrateStep bw) s) := by
  induction evs generalizing s with
  | nil => exact h
  | cons e rest ih => exact ih _ (hydrateStep_inv bw s e h)

/-- After the shared hydrate promise has rejected (promise still set,
cache not hydrated), every later event leaves the rejected-pending state in
place: no event re-invokes `driver.hydrate()` and the cache never becomes
hydrated, because the source clears `hydratePromise` only after a
successful `await`. -/
theorem foldl_hydrateStep_frozen {P : Type} (bw : TachyonBandwidth)
    (evs : List (HydrateEvent P)) (s : HydrateState P)
    (hp : s.pending = true) (hr : s.rejected = true) (hh : s.isHydrated = false) :
    (evs.foldl (hydrateStep bw) s).hydrateCount = s.hydrateCount ∧
      (evs.foldl (hydrateStep bw) s).pending = true ∧
      (evs.foldl (hydrateStep bw) s).rejected = true ∧
      (evs.foldl (hydrateStep bw) s).isHydrated = false := by
  induction evs generalizing s with
  | nil => exact ⟨rfl, hp, hr, hh⟩
  | cons e rest ih =>
    have hstep : hydrateStep bw s e = { s with rejected := true } ∨ hydrateStep bw s e = s := by
      cases e with
      | enter =>
        right
        simp [hydrateStep, hh, hp]
      | resolve data now =>
        right
        have hg : ¬(s.pending = true ∧ s.rejected = false) := by
          intro hcontra
          rw [hr] at hcontra
          simp at hcontra
        simp [hydrateStep, if_neg hg]
      | reject =>
        left
        simp [hydrateStep, hp, hh]
    rcases hstep with hstep | hstep
    · rw [List.foldl_cons, hstep]
      exact ih { s with rejected := true } hp rfl hh
    · rw [List.foldl_cons, hstep]
      exact ih s hp hr hh

/-- `handleStore` only stores through `writeStore`, which sets the lock. -/
theorem handleStore_stores_isWriting {P : Type} (bw limit : TachyonBandwidth)
    (s : CState P) (now : Nat) (h : (handleStore bw limit s now).2.stores ≠ 0) :
    (handleStore bw limit s now).1.isWriting = true := by
  by_cases hb : testBandwidth bw limit = true
  · simp [handleStore, hb, writeStore]
  · simp only [Bool.not_eq_true] at hb
    exact absurd (by simp [handleStore, hb]) h

/-- `cleanExpired` only stores through `writeStore`, which sets the lock. -/
theorem cleanExpired_stores_isWriting {P : Type} (bw limit : TachyonBandwidth)
    (s : CState P) (now : Nat) (h : (cleanExpired bw limit s now).2.stores ≠ 0) :
    (cleanExpired bw limit s now).1.isWriting = true := by
  by_cases he : (handleExpires s.cache now).2.isEmpty = true
  · exact absurd (by simp [cleanExpired, he]) h
  · simp only [Bool.not_eq_true] at he
    by_cases hb : testBandwidth bw limit = true
    · simp [cleanExpired, he, hb, writeStore]
    · simp only [Bool.not_eq_true] at hb
      exact absurd (by simp [cleanExpired, he, hb]) h

/-- `handleStore` never releases the write lock. -/
theorem handleStore_isWriting_mono {P : Type} (bw limit : TachyonBandwidth)
    (s : CState P) (now : Nat) (h : s.isWriting = true) :
    (handleStore bw limit s now).1.isWriting = true := by
  by_cases hb : testBandwidth bw limit = true
  · simp [handleStore, hb, writeStore]
  · simp only [Bool.not_eq_true] at hb
    simp [handleStore, hb, h]

/-- `cleanExpired` never releases the write lock. -/
theorem cleanExpired_isWriting_mono {P : Type} (bw limit : TachyonBandwidth)
    (s : CState P) (now : Nat) (h : s.isWriting = true) :
    (cleanExpired bw limit s now).1.isWriting = true := by
  by_cases he : (handleExpires s.cache now).2.isEmpty = true
  · simp [cleanExpired, he, h]
  · simp only [Bool.not_eq_true] at he
    by_cases hb : testBandwidth bw limit = true
    · simp [cleanExpired, he, hb, writeStore]
    · simp only [Bool.not_eq_true] at hb
      simp [cleanExpired, he, hb, h]

/-- C1: after any public operation a driver store is issued iff either the
operation is a direct mutation — `set`, `delete` that removed a key, or
`clear`, each gated at the `VerySmall` threshold that every driver tier
satisfies, hence exactly one store regardless of tier — or it is a
read-path sweep (`get` at threshold `Small`; `has`/`expires` at threshold
`Normal`) that evicted at least one entry while the driver's tier is
numerically ≤ the threshold tier; a sweep that evicts nothing stores
nothing, and `size`/iteration never store. -/
theorem c1_store_policy {P : Type} (cfg : CacheConfig) (s : CState P) (now : Nat)
    (k : String) (d : P) (e : Option Nat) :
    (applyOp cfg s (.setOp k d e) now).2.stores = 1 ∧
    (applyOp cfg s .clearOp now).2.stores = 1 ∧
    (applyOp cfg s (.deleteOp k) now).2.stores =
      (if (listGet s.cache k).isSome = true then 1 else 0) ∧
    (applyOp cfg s (.getOp k) now).2.stores =
      (if (handleExpires s.cache now).2.isEmpty = false ∧
          cfg.bw.toNat ≤ TachyonBandwidth.Small.toNat then 1 else 0) ∧
    (applyOp cfg s (.hasOp k) now).2.stores =
      (if (handleExpires s.cache now).2.isEmpty = false ∧
          cfg.bw.toNat ≤ TachyonBandwidth.Normal.toNat then 1 else 0) ∧
    (applyOp cfg s (.expiresOp k) now).2.stores =
      (if (handleExpires s.cache now).2.isEmpty = false ∧
          cfg.bw.toNat ≤ TachyonBandwidth.Normal.toNat then 1 else 0) ∧
    (applyOp cfg s .sizeOp now).2.stores = 0 ∧
    (applyOp cfg s .entriesOp now).2.stores = 0 ∧
    (applyOp cfg s .keysOp now).2.stores = 0 ∧
    (applyOp cfg s .valuesOp now).2.stores = 0 := by
  refine ⟨?_, ?_, ?_, ?_, ?_, ?_, rfl, rfl, rfl, rfl⟩
  · simp [applyOp, handleStore, writeStore, testBandwidth_verySmall]
  · simp [applyOp, handleStore, writeStore, testBandwidth_verySmall]
  · cases hg : listGet s.cache k with
    | none => simp [applyOp, hg]
    | some v => simp [applyOp, hg, handleStore, writeStore, testBandwidth_verySmall]
  · cases he : (handleExpires s.cache now).2.isEmpty with
    | true => simp [applyOp, cleanExpired, he]
    | false =>
      by_cases hb : cfg.bw.toNat ≤ TachyonBandwidth.Small.toNat
      · simp [applyOp, cleanExpired, he, writeStore, testBandwidth, hb]
      · simp [applyOp, cleanExpired, he, writeStore, testBandwidth, hb]
  · cases he : (handleExpires s.cache now).2.isEmpty with
    | true => simp [applyOp, cleanExpired, he]
    | false =>
      by_cases hb : cfg.bw.toNat ≤ TachyonBandwidth.Normal.toNat
      · simp [applyOp, cleanExpired, he, writeStore, testBandwidth, hb]
      · simp [applyOp, cleanExpired, he, writeStore, testBandwidth, hb]
  · cases he : (handleExpires s.cache now).2.isEmpty with
    | true => simp [applyOp, cleanExpired, he]
    | false =>
      by_cases hb : cfg.bw.toNat ≤ TachyonBandwidth.Normal.toNat
      · simp [applyOp, cleanExpired, he, writeStore, testBandwidth, hb]
      · simp [applyOp, cleanExpired, he, writeStore, testBandwidth, hb]

/-- C2: an entry survives a sweep iff it has no expiry strictly below the
current timestamp (expiry equal to `now` or absent is retained); the removed
pairs are exactly the expired `(key, data)` pairs, and they are what the
`clear` notification of a non-empty sweep reports. -/
theorem c2_expiry_eviction {P : Type} (cache : CacheMap P) (now : Nat) (k : String)
    (v : CachePayload P) (hmem : (k, v) ∈ cache) (d : P) (bw limit : TachyonBandwidth)
    (s : CState P) :
    ((k, v) ∈ (handleExpires cache now).1 ↔ ¬∃ e, v.expires = some e ∧ e < now) ∧
    ((k, d) ∈ (handleExpires cache now).2 ↔
      ∃ v', (k, v') ∈ cache ∧ (∃ e, v'.expires = some e ∧ e < now) ∧ v'.data = d) ∧
    (v.expires = some now → (k, v) ∈ (handleExpires cache now).1) ∧
    (v.expires = none → (k, v) ∈ (handleExpires cache now).1) ∧
    ((handleExpires s.cache now).2.isEmpty = false →
      (cleanExpired bw limit s now).2.clears = [(handleExpires s.cache now).2]) ∧
    ((handleExpires s.cache now).2.isEmpty = false →
      (handleStore bw limit s now).2.clears = [(handleExpires s.cache now).2]) := by
  have hfst : (k, v) ∈ (handleExpires cache now).1 ↔ ¬∃ e, v.expires = some e ∧ e < now := by
    rw [mem_handleExpires_fst]
    constructor
    · intro h hex
      rw [(isExpiredB_iff v now).mpr hex] at h
      exact absurd h.2 (by simp)
    · intro hex
      refine ⟨hmem, ?_⟩
      cases hb : isExpiredB v now with
      | false => rfl
      | true => exact absurd ((isExpiredB_iff v now).mp hb) hex
  refine ⟨hfst, ?_, ?_, ?_, ?_, ?_⟩
  · rw [mem_handleExpires_snd]
    constructor
    · rintro ⟨v', hm, hb, hd⟩
      exact ⟨v', hm, (isExpiredB_iff v' now).mp hb, hd⟩
    · rintro ⟨v', hm, hex, hd⟩
      exact ⟨v', hm, (isExpiredB_iff v' now).mpr hex, hd⟩
  · intro hnow
    refine hfst.mpr ?_
    rintro ⟨e, he, hlt⟩
    rw [hnow] at he
    injection he with h
    omega
  · intro hnone
    refine hfst.mpr ?_
    rintro ⟨e, he, _⟩
    rw [hnone] at he
    exact Option.noConfusion he
  · intro he
    simp [cleanExpired, he]
  · intro he
    simp [handleStore, he]

/-- C3: while the write lock is clear, the external-update merge keeps
every local key, replaces a key's entry by the incoming one exactly when
the key is absent locally or the stored expiry differs, and re-stores to
the driver iff at least one entry was added or replaced. -/
theorem c3_external_update_merge {P : Type} (cfg : CacheConfig) (cache incoming : CacheMap P)
    (now : Nat) (k : String) (v : CachePayload P) (k0 : String)
    (hnodup : (incoming.map Prod.fst).Nodup) (hkv : (k, v) ∈ incoming) :
    ((listGet cache k0).isSome = true →
      (listGet (mergeUpdate cache incoming).1 k0).isSome = true) ∧
    listGet (mergeUpdate cache incoming).1 k = mergeExpected cache k v ∧
    (applyOp cfg { cache := cache, isWriting := false } (.updateOp (some incoming)) now).2.stores =
      (if incoming.any (fun kv => needsUpdate cache kv) = true then 1 else 0) := by
  have hm : (List.foldl mergeEntry (cache, false) incoming).2 =
      incoming.any (fun kv => needsUpdate cache kv) := by
    rw [foldl_mergeEntry_modified]
    simp
  refine ⟨?_, ?_, ?_⟩
  · intro h
    exact foldl_mergeEntry_isSome incoming (cache, false) k0 h
  · exact foldl_mergeEntry_get_mem incoming (cache, false) k v hnodup hkv
  · cases ha : incoming.any (fun kv => needsUpdate cache kv) with
    | true => simp [applyOp, mergeUpdate, hm, ha, handleStore, writeStore, testBandwidth_verySmall]
    | false => simp [applyOp, mergeUpdate, hm, ha]

/-- C4: along every trace of operations entering `doInitialHydrate` and of
promise resolutions/rejections, `driver.hydrate()` runs at most once;
when the shared promise fulfils, the awaiting callers mark the cache
hydrated, the mapping is replaced wholesale by the returned snapshot (then
swept only on a `VerySmall` driver) or left as-is when the driver returned
nothing, and once hydrated an entering caller changes nothing. -/
theorem c4_single_flight_hydrate {P : Type} (bw : TachyonBandwidth)
    (evs : List (HydrateEvent P)) (s : HydrateState P) (m : CacheMap P) (now : Nat)
    (hp : s.pending = true) (hr : s.rejected = false) :
    (runHydrate bw evs).hydrateCount ≤ 1 ∧
    (hydrateStep bw s (.resolve (some m) now)).isHydrated = true ∧
    (hydrateStep bw s (.resolve (some m) now)).pending = false ∧
    (hydrateStep bw s (.resolve (some m) now)).cache =
      (if bw = TachyonBandwidth.VerySmall then (handleExpires m now).1 else m) ∧
    (hydrateStep bw s (.resolve none now)).cache =
      (if bw = TachyonBandwidth.VerySmall then (handleExpires s.cache now).1 else s.cache) ∧
    (∀ t : HydrateState P, t.isHydrated = true → hydrateStep bw t .enter = t) := by
  have hinv : hydrateInv (runHydrate bw evs) := by
    refine foldl_hydrateStep_inv bw evs initialHydrateState ⟨?_, ?_⟩
    · exact Nat.zero_le 1
    · intro _ _
      rfl
  have hguard : (s.pending = true ∧ s.rejected = false) := ⟨hp, hr⟩
  refine ⟨hinv.1, ?_, ?_, ?_, ?_, ?_⟩
  · by_cases hbw : bw = TachyonBandwidth.VerySmall
    · by_cases he : (handleExpires m now).2.isEmpty = true
      · simp [hydrateStep, if_pos hguard, hbw, he]
      · simp [hydrateStep, if_pos hguard, hbw, he]
    · simp [hydrateStep, if_pos hguard, hbw]
  · by_cases hbw : bw = TachyonBandwidth.VerySmall
    · by_cases he : (handleExpires m now).2.isEmpty = true
      · simp [hydrateStep, if_pos hguard, hbw, he]
      · simp [hydrateStep, if_pos hguard, hbw, he]
    · simp [hydrateStep, if_pos hguard, hbw]
  · by_cases hbw : bw = TachyonBandwidth.VerySmall
    · by_cases he : (handleExpires m now).2.isEmpty = true
      · simp [hydrateStep, if_pos hguard, hbw, he]
      · simp [hydrateStep, if_pos hguard, hbw, he]
    · simp [hydrateStep, if_pos hguard, hbw]
  · by_cases hbw : bw = TachyonBandwidth.VerySmall
    · by_cases he : (handleExpires s.cache now).2.isEmpty = true
      · simp [hydrateStep, if_pos hguard, hbw, he]
      · simp [hydrateStep, if_pos hguard, hbw, he]
    · simp [hydrateStep, if_pos hguard, hbw]
  · intro t ht
    simp [hydrateStep, ht]

/-- C5: every operation that issues a driver store leaves the `isWriting`
lock set; while the lock is set a driver update notification is discarded
without touching the mapping and without storing; and no operation except
the lock-release timer callback ever clears the lock. -/
theorem c5_write_lock {P : Type} (cfg : CacheConfig) (s : CState P) (op : CacheOp P)
    (now : Nat) (d : Option (CacheMap P)) :
    ((applyOp cfg s op now).2.stores ≠ 0 → (applyOp cfg s op now).1.isWriting = true) ∧
    (s.isWriting = true →
      applyOp cfg s (.updateOp d) now = (s, { stores := 0, clears := [] })) ∧
    (s.isWriting = true → op ≠ CacheOp.lockTimeout →
      (applyOp cfg s op now).1.isWriting = true) := by
  refine ⟨?_, ?_, ?_⟩
  · intro hst
    cases op with
    | getOp key => exact cleanExpired_stores_isWriting _ _ _ _ hst
    | setOp key data expires => exact handleStore_stores_isWriting _ _ _ _ hst
    | deleteOp key =>
      cases hg : listGet s.cache key with
      | none =>
        simp only [applyOp, hg] at hst
        exact absurd rfl hst
      | some v =>
        have hs : (applyOp cfg s (.deleteOp key) now).2.stores =
            (handleStore cfg.bw .VerySmall
              { cache := listDelete s.cache key, isWriting := s.isWriting } now).2.stores := by
          simp only [applyOp, hg]
        have hw : (applyOp cfg s (.deleteOp key) now).1 =
            (handleStore cfg.bw .VerySmall
              { cache := listDelete s.cache key, isWriting := s.isWriting } now).1 := by
          simp only [applyOp, hg]
        rw [hw]
        exact handleStore_stores_isWriting _ _ _ _ (hs ▸ hst)
    | hasOp key => exact cleanExpired_stores_isWriting _ _ _ _ hst
    | expiresOp key => exact cleanExpired_stores_isWriting _ _ _ _ hst
    | clearOp => exact handleStore_stores_isWriting _ _ _ _ hst
    | sizeOp => exact absurd rfl hst
    | entriesOp => exact absurd rfl hst
    | keysOp => exact absurd rfl hst
    | valuesOp => exact absurd rfl hst
    | updateOp data =>
      by_cases hiw : s.isWriting = true
      · simp only [applyOp, if_pos hiw] at hst
        exact absurd rfl hst
      · cases data with
        | none =>
          simp only [applyOp, if_neg hiw] at hst
          exact absurd rfl hst
        | some inc =>
          by_cases hmod : (mergeUpdate s.cache inc).2 = true
          · have hw : (applyOp cfg s (.updateOp (some inc)) now) =
                handleStore cfg.bw .VerySmall
                  { cache := (mergeUpdate s.cache inc).1, isWriting := s.isWriting } now := by
              simp only [applyOp, if_neg hiw, hmod, if_true]
            rw [hw] at hst ⊢
            exact handleStore_stores_isWriting _ _ _ _ hst
          · have hz : (applyOp cfg s (.updateOp (some inc)) now).2.stores = 0 := by
              simp only [Bool.not_eq_true] at hmod
              simp [applyOp, if_neg hiw, hmod]
            exact absurd hz hst
    | lockTimeout => exact absurd rfl hst
  · intro hiw
    simp only [applyOp, if_pos hiw]
  · intro hiw hop
    cases op with
    | getOp key => exact cleanExpired_isWriting_mono _ _ _ _ hiw
    | setOp key data expires => exact handleStore_isWriting_mono _ _ _ _ hiw
    | deleteOp key =>
      cases hg : listGet s.cache key with
      | none =>
        simp only [applyOp, hg]
        exact hiw
      | some v =>
        have hw : (applyOp cfg s (.deleteOp key) now).1 =
            (handleStore cfg.bw .VerySmall
              { cache := listDelete s.cache key, isWriting := s.isWriting } now).1 := by
          simp only [applyOp, hg]
        rw [hw]
        exact handleStore_isWriting_mono _ _ _ _ hiw
    | hasOp key => exact cleanExpired_isWriting_mono _ _ _ _ hiw
    | expiresOp key => exact cleanExpired_isWriting_mono _ _ _ _ hiw
    | clearOp => exact handleStore_isWriting_mono _ _ _ _ hiw
    | sizeOp => exact hiw
    | entriesOp => exact hiw
    | keysOp => exact hiw
    | valuesOp => exact hiw
    | updateOp data =>
      simp only [applyOp, if_pos hiw]
      exact hiw
    | lockTimeout => exact absurd rfl hop

/-- C6 as stated is false on the code: the trace `enter; reject` leaves the
shared hydrate promise set (`pending = true`), not cleared, and a later
entering operation starts no fresh hydrate attempt — `hydrateCount` stays 1
and the cache stays unhydrated. -/
theorem c6_counterexample :
    (runHydrate (P := Nat) TachyonBandwidth.VeryLarge
      [HydrateEvent.enter, HydrateEvent.reject]).pending = true ∧
    (runHydrate (P := Nat) TachyonBandwidth.VeryLarge
      [HydrateEvent.enter, HydrateEvent.reject, HydrateEvent.enter]).hydrateCount = 1 ∧
    (runHydrate (P := Nat) TachyonBandwidth.VeryLarge
      [HydrateEvent.enter, HydrateEvent.reject, HydrateEvent.enter]).isHydrated = false := by
  decide

/-- C6 (amended): when the shared hydrate promise has rejected, the cache
does not become hydrated and the promise is never cleared, so every later
operation awaits the same rejected promise — receiving the same error —
and `driver.hydrate()` is never re-invoked. -/
theorem c6_amended_hydrate_not_retryable {P : Type} (bw : TachyonBandwidth)
    (evs : List (HydrateEvent P)) (s : HydrateState P)
    (hp : s.pending = true) (hr : s.rejected = true) (hh : s.isHydrated = false) :
    (evs.foldl (hydrateStep bw) s).hydrateCount = s.hydrateCount ∧
    (evs.foldl (hydrateStep bw) s).pending = true ∧
    (evs.foldl (hydrateStep bw) s).isHydrated = false := by
  have h := foldl_hydrateStep_frozen bw evs s hp hr hh
  exact ⟨h.1, h.2.1, h.2.2.2⟩

/-- C7: the expiry sweep after a successful initial hydration runs exactly
when the driver's bandwidth tier is `VerySmall` — the cheapest tier per the
specification's own ordering — storing the swept mapping and notifying
`clear` when it evicted anything; for every other tier the rebuilt mapping
is kept untouched and no store or notification happens at hydration time. -/
theorem c7_post_hydrate_self_clean {P : Type} (bw : TachyonBandwidth) (s : HydrateState P)
    (m : CacheMap P) (now : Nat) (hp : s.pending = true) (hr : s.rejected = false) :
    (bw = TachyonBandwidth.VerySmall →
      (hydrateStep bw s (.resolve (some m) now)).cache = (handleExpires m now).1 ∧
      (hydrateStep bw s (.resolve (some m) now)).stores =
        s.stores + (if (handleExpires m now).2.isEmpty = true then 0 else 1) ∧
      (hydrateStep bw s (.resolve (some m) now)).clears =
        s.clears ++
          (if (handleExpires m now).2.isEmpty = true then [] else [(handleExpires m now).2])) ∧
    (bw ≠ TachyonBandwidth.VerySmall →
      (hydrateStep bw s (.resolve (some m) now)).cache = m ∧
      (hydrateStep bw s (.resolve (some m) now)).stores = s.stores ∧
      (hydrateStep bw s (.resolve (some m) now)).clears = s.clears) := by
  have hguard : (s.pending = true ∧ s.rejected = false) := ⟨hp, hr⟩
  constructor
  · intro hbw
    by_cases he : (handleExpires m now).2.isEmpty = true
    · refine ⟨?_, ?_, ?_⟩ <;> simp [hydrateStep, if_pos hguard, hbw, he]
    · refine ⟨?_, ?_, ?_⟩ <;> simp [hydrateStep, if_pos hguard, hbw, he]
  · intro hbw
    refine ⟨?_, ?_, ?_⟩ <;> simp [hydrateStep, if_pos hguard, hbw]

/-- C8 as stated is false on the code for a configured default of 0 ms:
`set` with no explicit expiry computes
`defaultExpireMs && Date.now() + defaultExpireMs`, and the falsy `0`
short-circuits to the timestamp `0` rather than `now + 0`; at `now = 1000`
the entry is therefore stored already expired and evicted by `set`'s own
sweep instead of surviving with expiry `1000`. -/
theorem c8_counterexample :
    computeExpireTs none (some 0) 1000 ≠ some (1000 + 0) ∧
    computeExpireTs none (some 0) 1000 = some 0 ∧
    (applyOp { bw := TachyonBandwidth.VeryLarge, defaultExpireMs := some 0 }
        { cache := [], isWriting := false } (CacheOp.setOp "k" (0 : Nat) none) 1000).1.cache =
      [] := by
  refine ⟨by decide, rfl, ?_⟩
  rfl

/-- C8 (amended): `set` with no explicit expiry on a cache configured with
a nonzero default time-to-live `dflt` stores the entry with expiry
`now + dflt`; with no default configured it stores the entry with no
expiry. (A configured default of exactly 0 ms instead yields the timestamp
0, because the source's JavaScript `&&` treats 0 as unset but evaluates to
it.) -/
theorem c8_amended_default_ttl {P : Type} (cfg : CacheConfig) (s : CState P) (k : String)
    (d : P) (now dflt : Nat) (hd : cfg.defaultExpireMs = some dflt) (h0 : dflt ≠ 0) :
    (k, { data := d, expires := some (now + dflt) }) ∈
      (applyOp cfg s (.setOp k d none) now).1.cache ∧
    (∀ cfg2 : CacheConfig, cfg2.defaultExpireMs = none →
      (k, { data := d, expires := none }) ∈
        (applyOp cfg2 s (.setOp k d none) now).1.cache) := by
  constructor
  · have hts : computeExpireTs none cfg.defaultExpireMs now = some (now + dflt) := by
      rw [hd]
      simp [computeExpireTs, h0]
    have hmem : (k, ({ data := d, expires := some (now + dflt) } : CachePayload P)) ∈
        listSet s.cache k { data := d, expires := some (now + dflt) } :=
      listSet_self_mem _ _ _
    have hnotexp : isExpiredB ({ data := d, expires := some (now + dflt) } : CachePayload P)
        now = false := by
      simp [isExpiredB]
    have := (mem_handleExpires_fst
      (listSet s.cache k { data := d, expires := some (now + dflt) }) now k
      { data := d, expires := some (now + dflt) }).mpr ⟨hmem, hnotexp⟩
    simp only [applyOp, hts, handleStore, testBandwidth_verySmall, if_true, writeStore]
    exact this
  · intro cfg2 hd2
    have hts : computeExpireTs none cfg2.defaultExpireMs now = none := by
      rw [hd2]
      rfl
    have hmem : (k, ({ data := d, expires := none } : CachePayload P)) ∈
        listSet s.cache k { data := d, expires := none } :=
      listSet_self_mem _ _ _
    have hnotexp : isExpiredB ({ data := d, expires := none } : CachePayload P) now = false := by
      simp [isExpiredB]
    have := (mem_handleExpires_fst
      (listSet s.cache k { data := d, expires := none }) now k
      { data := d, expires := none }).mpr ⟨hmem, hnotexp⟩
    simp only [applyOp, hts, handleStore, testBandwidth_verySmall, if_true, writeStore]
    exact this

/-- C9: `size` resolves to the raw entry count of the in-memory mapping —
survivors plus not-yet-swept expired entries — and performs no sweep, no
eviction and no driver store. -/
theorem c9_size_raw_count {P : Type} (cfg : CacheConfig) (s : CState P) (now : Nat) :
    applyOp cfg s .sizeOp now = (s, { stores := 0, clears := [] }) ∧
    sizeValue s =
      (handleExpires s.cache now).1.length + (handleExpires s.cache now).2.length :=
  ⟨rfl, (handleExpires_length s.cache now).symm⟩

/-- C10: `entries`, `keys` and `values` leave the state untouched and issue
no store and no clear notification, and an entry whose expiry already lies
in the past still appears in each produced sequence. -/
theorem c10_iteration_effect_free {P : Type} (cfg : CacheConfig) (s : CState P) (now : Nat)
    (k : String) (v : CachePayload P) (e : Nat)
    (hmem : (k, v) ∈ s.cache) (hexp : v.expires = some e) (hlt : e < now) :
    applyOp cfg s .entriesOp now = (s, { stores := 0, clears := [] }) ∧
    applyOp cfg s .keysOp now = (s, { stores := 0, clears := [] }) ∧
    applyOp cfg s .valuesOp now = (s, { stores := 0, clears := [] }) ∧
    (k, v.data) ∈ entriesList s ∧ k ∈ keysList s ∧ v.data ∈ valuesList s := by
  refine ⟨rfl, rfl, rfl, ?_, ?_, ?_⟩
  · exact List.mem_map.mpr ⟨(k, v), hmem, rfl⟩
  · exact List.mem_map.mpr ⟨(k, v), hmem, rfl⟩
  · exact List.mem_map.mpr ⟨(k, v.data), List.mem_map.mpr ⟨(k, v), hmem, rfl⟩, rfl⟩

/-- C2 witness: on the concrete two-entry map at time 5, the expired entry
`a` is collected into the removed pairs, the permanent entry `b` survives,
and both `cleanExpired` and `handleStore` report exactly the removed
pairs. -/
theorem c2_expiry_eviction_witness :
    ("b", sampleEntryNoExp) ∈ sampleCache2 ∧
    ("a", sampleEntryLive) ∈ sampleCache2 ∧
    ("a", (1 : Nat)) ∈ (handleExpires sampleCache2 5).2 ∧
    ("b", sampleEntryNoExp) ∈ (handleExpires sampleCache2 5).1 ∧
    (cleanExpired TachyonBandwidth.VeryLarge TachyonBandwidth.Small sampleState2 5).2.clears =
      [(handleExpires sampleState2.cache 5).2] ∧
    (handleStore TachyonBandwidth.VeryLarge TachyonBandwidth.Small sampleState2 5).2.clears =
      [(handleExpires sampleState2.cache 5).2] := by
  have h1 := c2_expiry_eviction sampleCache2 5 "b" sampleEntryNoExp (by decide) 1
    TachyonBandwidth.VeryLarge TachyonBandwidth.Small sampleState2
  have h2 := c2_expiry_eviction sampleCache2 5 "a" sampleEntryLive (by decide) 1
    TachyonBandwidth.VeryLarge TachyonBandwidth.Small sampleState2
  refine ⟨by decide, by decide, ?_, ?_, ?_, ?_⟩
  · exact h2.2.1.mpr ⟨sampleEntryLive, by decide, ⟨3, rfl, by decide⟩, rfl⟩
  · exact h1.2.2.2.1 rfl
  · exact h1.2.2.2.2.1 (by decide)
  · exact h1.2.2.2.2.2 (by decide)

/-- C3 witness: merging the concrete incoming snapshot into the concrete
local map keeps key `a`, binds key `b` per the merge rule, and issues a
single re-store because the snapshot modified the map. -/
theorem c3_external_update_merge_witness :
    (sampleIncoming.map Prod.fst).Nodup ∧
    ("b", sampleEntryB) ∈ sampleIncoming ∧
    (listGet (mergeUpdate sampleCache sampleIncoming).1 "a").isSome = true ∧
    listGet (mergeUpdate sampleCache sampleIncoming).1 "b" =
      mergeExpected sampleCache "b" sampleEntryB ∧
    (applyOp sampleCfg { cache := sampleCache, isWriting := false }
        (CacheOp.updateOp (some sampleIncoming)) 5).2.stores =
      (if sampleIncoming.any (fun kv => needsUpdate sampleCache kv) = true then 1 else 0) := by
  have h := c3_external_update_merge sampleCfg sampleCache sampleIncoming 5 "b" sampleEntryB "a"
    (by decide) (by decide)
  exact ⟨by decide, by decide, h.1 (by decide), h.2.1, h.2.2⟩

/-- C4 witness: on a concrete trace one hydrate runs, and resolving the
concrete pending state marks it hydrated, clears the promise and installs
the returned snapshot. -/
theorem c4_single_flight_hydrate_witness :
    samplePending.pending = true ∧
    samplePending.rejected = false ∧
    (runHydrate TachyonBandwidth.Large
      ([HydrateEvent.enter] : List (HydrateEvent Nat))).hydrateCount ≤ 1 ∧
    (hydrateStep TachyonBandwidth.Large samplePending
      (HydrateEvent.resolve (some sampleCache) 5)).isHydrated = true ∧
    (hydrateStep TachyonBandwidth.Large samplePending
      (HydrateEvent.resolve (some sampleCache) 5)).pending = false ∧
    (hydrateStep TachyonBandwidth.Large samplePending
      (HydrateEvent.resolve (some sampleCache) 5)).cache =
      (if TachyonBandwidth.Large = TachyonBandwidth.VerySmall then (handleExpires sampleCache 5).1
       else sampleCache) ∧
    (hydrateStep TachyonBandwidth.Large samplePending
      (HydrateEvent.resolve none 5)).cache =
      (if TachyonBandwidth.Large = TachyonBandwidth.VerySmall then
        (handleExpires samplePending.cache 5).1
       else samplePending.cache) := by
  have h := c4_single_flight_hydrate TachyonBandwidth.Large
    ([HydrateEvent.enter] : List (HydrateEvent Nat)) samplePending sampleCache 5 rfl rfl
  exact ⟨rfl, rfl, h.1, h.2.1, h.2.2.1, h.2.2.2.1, h.2.2.2.2.1⟩

/-- C5 witness: with the write lock set in the concrete state, a driver
update is discarded wholesale; and the concrete `get` that evicts and
stores leaves the lock set. -/
theorem c5_write_lock_witness :
    sampleWriting.isWriting = true ∧
    applyOp sampleCfg sampleWriting (CacheOp.updateOp (some sampleIncoming)) 5 =
      (sampleWriting, { stores := 0, clears := [] }) ∧
    (applyOp sampleCfg sampleWriting (CacheOp.getOp "a") 5).1.isWriting = true ∧
    (applyOp sampleCfg sampleWriting (CacheOp.setOp "z" (9 : Nat) none) 5).1.isWriting = true := by
  have h := c5_write_lock sampleCfg sampleWriting (CacheOp.getOp "a") 5 (some sampleIncoming)
  have h2 := c5_write_lock sampleCfg sampleWriting (CacheOp.setOp "z" (9 : Nat) none) 5
    (some sampleIncoming)
  exact ⟨rfl, h.2.1 rfl, h.1 (by decide), h2.2.2 rfl (by decide)⟩

/-- C6 witness: from the concrete rejected-pending state, an `enter` event
re-invokes nothing: the hydrate count is frozen, the promise stays set and
the cache stays unhydrated. -/
theorem c6_amended_hydrate_not_retryable_witness :
    sampleRejected.pending = true ∧
    sampleRejected.rejected = true ∧
    sampleRejected.isHydrated = false ∧
    (([HydrateEvent.enter] : List (HydrateEvent Nat)).foldl
      (hydrateStep TachyonBandwidth.VeryLarge) sampleRejected).hydrateCount =
      sampleRejected.hydrateCount ∧
    (([HydrateEvent.enter] : List (HydrateEvent Nat)).foldl
      (hydrateStep TachyonBandwidth.VeryLarge) sampleRejected).pending = true ∧
    (([HydrateEvent.enter] : List (HydrateEvent Nat)).foldl
      (hydrateStep TachyonBandwidth.VeryLarge) sampleRejected).isHydrated = false := by
  have h2 := c6_amended_hydrate_not_retryable TachyonBandwidth.VeryLarge
    ([HydrateEvent.enter] : List (HydrateEvent Nat)) sampleRejected rfl rfl rfl
  exact ⟨rfl, rfl, rfl, h2.1, h2.2.1, h2.2.2⟩

/-- C7 witness: resolving the concrete pending hydration with the concrete
snapshot sweeps, stores and notifies on a `VerySmall` driver, and installs
the snapshot untouched with no driver traffic on a `Large` driver. -/
theorem c7_post_hydrate_self_clean_witness :
    samplePending.pending = true ∧
    samplePending.rejected = false ∧
    (hydrateStep TachyonBandwidth.VerySmall samplePending
      (HydrateEvent.resolve (some sampleCache) 5)).cache = (handleExpires sampleCache 5).1 ∧
    (hydrateStep TachyonBandwidth.VerySmall samplePending
      (HydrateEvent.resolve (some sampleCache) 5)).stores =
      samplePending.stores + (if (handleExpires sampleCache 5).2.isEmpty = true then 0 else 1) ∧
    (hydrateStep TachyonBandwidth.VerySmall samplePending
      (HydrateEvent.resolve (some sampleCache) 5)).clears =
      samplePending.clears ++
        (if (handleExpires sampleCache 5).2.isEmpty = true then []
         else [(handleExpires sampleCache 5).2]) ∧
    (hydrateStep TachyonBandwidth.Large samplePending
      (HydrateEvent.resolve (some sampleCache) 5)).cache = sampleCache ∧
    (hydrateStep TachyonBandwidth.Large samplePending
      (HydrateEvent.resolve (some sampleCache) 5)).stores = samplePending.stores ∧
    (hydrateStep TachyonBandwidth.Large samplePending
      (HydrateEvent.resolve (some sampleCache) 5)).clears = samplePending.clears := by
  have h1 := (c7_post_hydrate_self_clean TachyonBandwidth.VerySmall samplePending sampleCache 5
    rfl rfl).1 rfl
  have h2 := (c7_post_hydrate_self_clean TachyonBandwidth.Large samplePending sampleCache 5
    rfl rfl).2 (by decide)
  exact ⟨rfl, rfl, h1.1, h1.2.1, h1.2.2, h2.1, h2.2.1, h2.2.2⟩

/-- C8 witness: with the concrete one-minute default TTL, `set` without an
explicit expiry stores expiry `now + 60000`; with no default configured it
stores no expiry. -/
theorem c8_amended_default_ttl_witness :
    sampleCfgTtl.defaultExpireMs = some 60000 ∧
    (60000 : Nat) ≠ 0 ∧
    ("z", ({ data := 9, expires := some (5 + 60000) } : CachePayload Nat)) ∈
      (applyOp sampleCfgTtl sampleState (CacheOp.setOp "z" (9 : Nat) none) 5).1.cache ∧
    ("z", ({ data := 9, expires := none } : CachePayload Nat)) ∈
      (applyOp sampleCfg sampleState (CacheOp.setOp "z" (9 : Nat) none) 5).1.cache := by
  have h := c8_amended_default_ttl sampleCfgTtl sampleState "z" (9 : Nat) 5 60000 rfl (by decide)
  exact ⟨rfl, by decide, h.1, h.2 sampleCfg rfl⟩

/-- C10 witness: on the concrete state the already-expired entry `a` still
appears in the entries, keys and values sequences, and the iteration
accessors change nothing and store nothing. -/
theorem c10_iteration_effect_free_witness :
    ("a", sampleEntryLive) ∈ sampleState.cache ∧
    sampleEntryLive.expires = some 3 ∧
    3 < 5 ∧
    applyOp sampleCfg sampleState CacheOp.entriesOp 5 =
      (sampleState, { stores := 0, clears := [] }) ∧
    applyOp sampleCfg sampleState CacheOp.keysOp 5 =
      (sampleState, { stores := 0, clears := [] }) ∧
    applyOp sampleCfg sampleState CacheOp.valuesOp 5 =
      (sampleState, { stores := 0, clears := [] }) ∧
    ("a", (1 : Nat)) ∈ entriesList sampleState ∧
    "a" ∈ keysList sampleState ∧
    (1 : Nat) ∈ valuesList sampleState := by
  have h := c10_iteration_effect_free sampleCfg sampleState 5 "a" sampleEntryLive 3
    (by decide) rfl (by decide)
  exact ⟨by decide, rfl, by decide, h.1, h.2.1, h.2.2.1, h.2.2.2.1, h.2.2.2.2.1, h.2.2.2.2.2⟩
